import Mathlib

/-!
Shallow embedding of the sigma.js demo page (`src/unnamed/part_000`): a
graphology graph store seeded with 8 nodes / 8 edges, plus the interaction
controller — drag'n'drop handlers (`downNode`, `mousemovebody`, `mouseup`),
the one-shot bounding-box capture on `mousedown`, and the node-creation
handler on `clickStage`.

Numbers (JS floats) are modelled as rationals.  The renderer's
`viewportToGraph` coordinate transform is an opaque collaborator and is
passed as a parameter `v2g : Point → Point`; the seed-layout angles
(`100 * Math.cos(angle)` …) are likewise abstracted as a position function
`pos : Nat → Point`, since the claims never depend on their numeric values.
-/

namespace SigmaDemo

/-- A point in either viewport or graph coordinates (`{x, y}` object). -/
structure Point where
  x : ℚ
  y : ℚ
deriving DecidableEq, Repr

/-- Node attributes as used by this page: position, `size`, `label`,
render `type`, `color`, `image` URL, and the transient `highlighted`
flag.  Optional fields model attributes that may be absent. -/
structure NodeAttrs where
  x : ℚ
  y : ℚ
  size : ℚ
  label : Option String := none
  type : Option String := none
  color : Option String := none
  image : Option String := none
  highlighted : Option Bool := none
deriving DecidableEq, Repr

/-- Edge attributes: render `type`, `label`, `size` (all absent for the
edges created by `clickStage`, which calls `addEdge` with no attributes). -/
structure EdgeAttrs where
  type : Option String := none
  label : Option String := none
  size : Option ℚ := none
deriving DecidableEq, Repr

/-- An edge of the graphology store: source id, target id, attributes. -/
structure Edge where
  source : String
  target : String
  attrs : EdgeAttrs
deriving DecidableEq, Repr

/-- The graphology `Graph` instance: node entries in insertion order
(graphology iterates nodes in insertion order) and edges in insertion
order. -/
structure GraphStore where
  nodes : List (String × NodeAttrs)
  edges : List Edge
deriving DecidableEq, Repr

/-- `graph.addNode(id, attributes)`. -/
def GraphStore.addNode (g : GraphStore) (id : String) (a : NodeAttrs) : GraphStore :=
  { g with nodes := g.nodes ++ [(id, a)] }

/-- `graph.addEdge(source, target, attributes)`. -/
def GraphStore.addEdge (g : GraphStore) (s t : String) (a : EdgeAttrs) : GraphStore :=
  { g with edges := g.edges ++ [⟨s, t, a⟩] }

/-- `graph.nodes()`: the node identifiers, in insertion order. -/
def GraphStore.nodeIds (g : GraphStore) : List String :=
  g.nodes.map Prod.fst

/-- `graph.getNodeAttributes(id)` (`none` when the node does not exist). -/
def GraphStore.getNodeAttributes (g : GraphStore) (id : String) : Option NodeAttrs :=
  (g.nodes.find? (fun p => p.1 == id)).map Prod.snd

/-- Update the attributes of node `id` through `f` (identity when the node
does not exist); common shape of `setNodeAttribute` / `removeNodeAttribute`. -/
def GraphStore.updateNode (g : GraphStore) (id : String) (f : NodeAttrs → NodeAttrs) :
    GraphStore :=
  { g with nodes := g.nodes.map (fun p => if p.1 == id then (p.1, f p.2) else p) }

/-- `graph.setNodeAttribute(id, "x", v)`. -/
def GraphStore.setX (g : GraphStore) (id : String) (v : ℚ) : GraphStore :=
  g.updateNode id (fun a => { a with x := v })

/-- `graph.setNodeAttribute(id, "y", v)`. -/
def GraphStore.setY (g : GraphStore) (id : String) (v : ℚ) : GraphStore :=
  g.updateNode id (fun a => { a with y := v })

/-- `graph.setNodeAttribute(id, "highlighted", b)`. -/
def GraphStore.setHighlighted (g : GraphStore) (id : String) (b : Bool) : GraphStore :=
  g.updateNode id (fun a => { a with highlighted := some b })

/-- `graph.removeNodeAttribute(id, "highlighted")`. -/
def GraphStore.removeHighlighted (g : GraphStore) (id : String) : GraphStore :=
  g.updateNode id (fun a => { a with highlighted := none })

/-- Whether node `id` currently carries the `highlighted` attribute. -/
def GraphStore.nodeHighlighted (g : GraphStore) (id : String) : Bool :=
  g.nodes.any (fun p => p.1 == id && p.2.highlighted.isSome)

/-- The identifiers of all nodes currently carrying `highlighted`. -/
def GraphStore.highlightedIds (g : GraphStore) : List String :=
  (g.nodes.filter (fun p => p.2.highlighted.isSome)).map Prod.fst

/-- `x` attribute of node `id` (`none` when the node does not exist). -/
def GraphStore.getX (g : GraphStore) (id : String) : Option ℚ :=
  (g.getNodeAttributes id).map NodeAttrs.x

/-- `y` attribute of node `id` (`none` when the node does not exist). -/
def GraphStore.getY (g : GraphStore) (id : String) : Option ℚ :=
  (g.getNodeAttributes id).map NodeAttrs.y

/-- `Math.pow(node.x - attrs.x, 2) + Math.pow(node.y - attrs.y, 2)`:
squared Euclidean distance from point `p` to a node's position. -/
def sqDist (p : Point) (a : NodeAttrs) : ℚ :=
  (p.x - a.x) ^ 2 + (p.y - a.y) ^ 2

/-- The comparator `(a, b) => a.distance - b.distance` as an order on
`{nodeId, distance}` records: ascending by distance. -/
def distLe (a b : String × ℚ) : Prop :=
  a.2 ≤ b.2

instance : DecidableRel distLe := fun a b => inferInstanceAs (Decidable (a.2 ≤ b.2))

instance : IsTotal (String × ℚ) distLe := ⟨fun a b => le_total a.2 b.2⟩

instance : IsTrans (String × ℚ) distLe := ⟨fun _ _ _ h h' => le_trans h h'⟩

/-- `graph.nodes().map((nodeId) => ({nodeId, distance}))`: each existing
node id paired with its squared distance to `p`. -/
def distEntries (g : GraphStore) (p : Point) : List (String × ℚ) :=
  g.nodeIds.map (fun nid =>
    (nid, ((g.getNodeAttributes nid).map (sqDist p)).getD 0))

/-- The distance entries after `.sort((a, b) => a.distance - b.distance)`
(a stable ascending sort, modelled by insertion sort). -/
def sortedDistEntries (g : GraphStore) (p : Point) : List (String × ℚ) :=
  (distEntries g p).insertionSort distLe

/-- `closestNodes`: the sorted distance entries after `.slice(0, 2)`. -/
def closestNodes (g : GraphStore) (p : Point) : List (String × ℚ) :=
  (sortedDistEntries g p).take 2

/-- The renderer's bounding box (`getBBox()` result shape). -/
structure BBox where
  xMin : ℚ
  xMax : ℚ
  yMin : ℚ
  yMax : ℚ
deriving DecidableEq, Repr

/-- The whole page state: the graph store, the drag'n'drop state variables
`draggedNode` / `isDragging`, and the renderer's custom bounding box
(`null` until `setCustomBBox` is called). -/
structure AppState where
  graph : GraphStore
  draggedNode : Option String
  isDragging : Bool
  customBBox : Option BBox
deriving DecidableEq, Repr

/-- The input events the page handles.  `mousemovebody` and `clickStage`
carry the viewport coordinates of the pointer; `clickStage` also carries
the environment-chosen fresh uuid and random color; `mousedown` carries
the renderer's current auto-computed bounding box (`renderer.getBBox()`). -/
inductive REvent where
  | downNode (n : String)
  | mousemovebody (e : Point)
  | mouseup
  | mousedown (autoBBox : BBox)
  | clickStage (e : Point) (newId : String) (colorStr : String)
deriving DecidableEq, Repr

/-- The `clickStage` handler: convert the click to graph coordinates,
build the new node record, find the two closest existing nodes, register
the new node, then add one (attribute-less) edge from it to each. -/
def clickStageStep (v2g : Point → Point) (g : GraphStore)
    (e : Point) (newId : String) (colorStr : String) : GraphStore :=
  let coordForGraph := v2g e
  let node : NodeAttrs :=
    { x := coordForGraph.x, y := coordForGraph.y, size := 10, color := some colorStr }
  let closest := closestNodes g coordForGraph
  let g1 := g.addNode newId node
  closest.foldl (fun acc c => acc.addEdge newId c.1 {}) g1

/-- One event dispatch: the five handlers registered on the renderer and
its mouse captor, faithful to the source file. -/
def step (v2g : Point → Point) (s : AppState) : REvent → AppState
  | .downNode n =>
      { s with isDragging := true, draggedNode := some n,
               graph := s.graph.setHighlighted n true }
  | .mousemovebody e =>
      match s.isDragging, s.draggedNode with
      | true, some n =>
          let pos := v2g e
          { s with graph := (s.graph.setX n pos.x).setY n pos.y }
      | _, _ => s
  | .mouseup =>
      let g := match s.draggedNode with
               | some n => s.graph.removeHighlighted n
               | none => s.graph
      { s with graph := g, isDragging := false, draggedNode := none }
  | .mousedown bb =>
      match s.customBBox with
      | none => { s with customBBox := some bb }
      | some _ => s
  | .clickStage e newId colorStr =>
      { s with graph := clickStageStep v2g s.graph e newId colorStr }

/-- Run a sequence of events from a state. -/
def run (v2g : Point → Point) (s : AppState) (es : List REvent) : AppState :=
  es.foldl (step v2g) s

/-- The seed graph before the arrange loop: the 8 `addNode` and 8
`addEdge` calls of the data section (graphology leaves `x`/`y` unset
until the loop below assigns them; `0` is a placeholder immediately
overwritten on every node by `arrangeXY`). -/
def seedGraph0 : GraphStore :=
  let g : GraphStore := { nodes := [], edges := [] }
  let g := g.addNode "John"
    { x := 0, y := 0, size := 15, label := some "John", type := some "image",
      image := some "./user.svg", color := some "#FA4F40" }
  let g := g.addNode "Mary"
    { x := 0, y := 0, size := 15, label := some "Mary", type := some "image",
      image := some "./user.svg", color := some "#FA4F40" }
  let g := g.addNode "Suzan"
    { x := 0, y := 0, size := 15, label := some "Suzan", type := some "image",
      image := some "./user.svg", color := some "#FA4F40" }
  let g := g.addNode "Nantes"
    { x := 0, y := 0, size := 15, label := some "Nantes", type := some "image",
      image := some "./city.svg", color := some "#727EE0" }
  let g := g.addNode "New-York"
    { x := 0, y := 0, size := 15, label := some "New-York", type := some "image",
      image := some "./city.svg", color := some "#727EE0" }
  let g := g.addNode "Sushis"
    { x := 0, y := 0, size := 7, label := some "Sushis", type := some "border",
      color := some "#5DB346" }
  let g := g.addNode "Falafels"
    { x := 0, y := 0, size := 7, label := some "Falafels", type := some "border",
      color := some "#5DB346" }
  let g := g.addNode "Kouign Amann"
    { x := 0, y := 0, size := 7, label := some "Kouign Amann", type := some "border",
      color := some "#5DB346" }
  let g := g.addEdge "John" "Mary"
    { type := some "line", label := some "works with", size := some 5 }
  let g := g.addEdge "Mary" "Suzan"
    { type := some "line", label := some "works with", size := some 5 }
  let g := g.addEdge "Mary" "Nantes"
    { type := some "arrow", label := some "lives in", size := some 5 }
  let g := g.addEdge "John" "New-York"
    { type := some "arrow", label := some "surfs with", size := some 5 }
  let g := g.addEdge "Suzan" "New-York"
    { type := some "arrow", label := some "lives in", size := some 5 }
  let g := g.addEdge "John" "Falafels"
    { type := some "arrow", label := some "eats", size := some 5 }
  let g := g.addEdge "Mary" "Sushis"
    { type := some "arrow", label := some "eats", size := some 5 }
  let g := g.addEdge "Suzan" "Kouign Amann"
    { type := some "arrow", label := some "eats", size := some 5 }
  g

/-- The arrange loop `graph.nodes().forEach((node, i) => { setX; setY })`,
with the transcendental values `100 * cos(i * 2π / order)` /
`100 * sin(i * 2π / order)` abstracted as `pos i`. -/
def arrangeXY (pos : Nat → Point) (g : GraphStore) : GraphStore :=
  g.nodeIds.enum.foldl
    (fun acc p => (acc.setX p.2 (pos p.1).x).setY p.2 (pos p.1).y) g

/-- The page's initial state: the arranged seed graph, no drag active,
no custom bounding box. -/
def initState (pos : Nat → Point) : AppState :=
  { graph := arrangeXY pos seedGraph0, draggedNode := none,
    isDragging := false, customBBox := none }

/-- Masks out the `x`/`y` fields of a node's attributes; used to state
that an operation changes nothing but a node's position. -/
def maskXY (a : NodeAttrs) : NodeAttrs :=
  { a with x := 0, y := 0 }

/-- Every edge references two node identifiers that currently exist. -/
def edgesValid (g : GraphStore) : Prop :=
  ∀ e ∈ g.edges, e.source ∈ g.nodeIds ∧ e.target ∈ g.nodeIds

instance (g : GraphStore) : Decidable (edgesValid g) :=
  inferInstanceAs (Decidable (∀ e ∈ g.edges, _ ∧ _))

/-- An event is legal in a state when the browser / renderer could emit it
there: a `downNode` press requires that no drag is active (the browser
serialises press / release), all other events are always possible. -/
def legalEv (s : AppState) : REvent → Bool
  | .downNode _ => !s.isDragging
  | _ => true

/-- A trace of events, each legal in the state it is dispatched from. -/
def legalTrace (v2g : Point → Point) (s : AppState) : List REvent → Bool
  | [] => true
  | e :: es => legalEv s e && legalTrace v2g (step v2g s e) es

/-! ### Basic lemmas about the graph-store operations -/

theorem edges_updateNode (g : GraphStore) (id : String) (f : NodeAttrs → NodeAttrs) :
    (g.updateNode id f).edges = g.edges := rfl

theorem nodes_updateNode (g : GraphStore) (id : String) (f : NodeAttrs → NodeAttrs) :
    (g.updateNode id f).nodes =
      g.nodes.map (fun p => if p.1 == id then (p.1, f p.2) else p) := rfl

theorem fst_map_update (l : List (String × NodeAttrs)) (id : String)
    (f : NodeAttrs → NodeAttrs) :
    (l.map (fun p => if p.1 == id then (p.1, f p.2) else p)).map Prod.fst =
      l.map Prod.fst := by
  induction l with
  | nil => rfl
  | cons p l ih =>
    simp only [List.map_cons, ih]
    cases h : p.1 == id
    · rw [if_neg (by simp [h])]
    · rw [if_pos rfl]

theorem nodeIds_updateNode (g : GraphStore) (id : String) (f : NodeAttrs → NodeAttrs) :
    (g.updateNode id f).nodeIds = g.nodeIds := by
  show (g.nodes.map _).map Prod.fst = g.nodes.map Prod.fst
  exact fst_map_update g.nodes id f

theorem find?_map_update (l : List (String × NodeAttrs)) (id : String)
    (f : NodeAttrs → NodeAttrs) :
    (l.map (fun p => if p.1 == id then (p.1, f p.2) else p)).find?
        (fun p => p.1 == id) =
      (l.find? (fun p => p.1 == id)).map (fun p => (p.1, f p.2)) := by
  induction l with
  | nil => rfl
  | cons p l ih =>
    rw [List.map_cons]
    cases h : p.1 == id
    · rw [if_neg (by simp [h]), List.find?_cons_of_neg _ (by simp [h]),
        List.find?_cons_of_neg _ (by simp [h]), ih]
    · simp [h]

theorem find?_map_update_ne (l : List (String × NodeAttrs)) (id m : String)
    (f : NodeAttrs → NodeAttrs) (hm : m ≠ id) :
    (l.map (fun p => if p.1 == id then (p.1, f p.2) else p)).find?
        (fun p => p.1 == m) =
      l.find? (fun p => p.1 == m) := by
  induction l with
  | nil => rfl
  | cons p l ih =>
    rw [List.map_cons]
    cases h : p.1 == m
    · cases hpid : p.1 == id
      · rw [if_neg (by simp [hpid]), List.find?_cons_of_neg _ (by simp [h]),
          List.find?_cons_of_neg _ (by simp [h]), ih]
      · rw [if_pos rfl, List.find?_cons_of_neg _ (by simp [h]),
          List.find?_cons_of_neg _ (by simp [h]), ih]
    · have hpm : p.1 = m := by simpa using h
      have hpid : (p.1 == id) = false := by simp [hpm, hm]
      simp [h, hpid]

theorem getNodeAttributes_updateNode_self (g : GraphStore) (id : String)
    (f : NodeAttrs → NodeAttrs) :
    (g.updateNode id f).getNodeAttributes id = (g.getNodeAttributes id).map f := by
  show ((g.nodes.map _).find? _).map Prod.snd =
    ((g.nodes.find? _).map Prod.snd).map f
  rw [find?_map_update, Option.map_map, Option.map_map]
  rfl

theorem getNodeAttributes_updateNode_ne (g : GraphStore) (id m : String)
    (f : NodeAttrs → NodeAttrs) (hm : m ≠ id) :
    (g.updateNode id f).getNodeAttributes m = g.getNodeAttributes m := by
  show ((g.nodes.map _).find? _).map Prod.snd = (g.nodes.find? _).map Prod.snd
  rw [find?_map_update_ne g.nodes id m f hm]

theorem getNodeAttributes_isSome (g : GraphStore) (id : String) :
    (g.getNodeAttributes id).isSome = true ↔ id ∈ g.nodeIds := by
  unfold GraphStore.getNodeAttributes GraphStore.nodeIds
  rw [Option.isSome_map']
  rw [List.find?_isSome]
  constructor
  · rintro ⟨p, hp, hpe⟩
    exact List.mem_map.2 ⟨p, hp, by simpa using hpe⟩
  · rintro h
    rcases List.mem_map.1 h with ⟨p, hp, hpe⟩
    exact ⟨p, hp, by simpa using hpe⟩

theorem nodes_addNode (g : GraphStore) (id : String) (a : NodeAttrs) :
    (g.addNode id a).nodes = g.nodes ++ [(id, a)] := rfl

theorem edges_addNode (g : GraphStore) (id : String) (a : NodeAttrs) :
    (g.addNode id a).edges = g.edges := rfl

theorem nodeIds_addNode (g : GraphStore) (id : String) (a : NodeAttrs) :
    (g.addNode id a).nodeIds = g.nodeIds ++ [id] := by
  show (g.nodes ++ [(id, a)]).map Prod.fst = g.nodes.map Prod.fst ++ [id]
  rw [List.map_append]
  rfl

theorem nodes_addEdge (g : GraphStore) (s t : String) (a : EdgeAttrs) :
    (g.addEdge s t a).nodes = g.nodes := rfl

theorem edges_addEdge (g : GraphStore) (s t : String) (a : EdgeAttrs) :
    (g.addEdge s t a).edges = g.edges ++ [⟨s, t, a⟩] := rfl

theorem foldl_addEdge_nodes (cs : List (String × ℚ)) (newId : String) (g : GraphStore) :
    (cs.foldl (fun acc c => acc.addEdge newId c.1 {}) g).nodes = g.nodes := by
  induction cs generalizing g with
  | nil => rfl
  | cons c cs ih => rw [List.foldl_cons, ih]; rfl

theorem foldl_addEdge_edges (cs : List (String × ℚ)) (newId : String) (g : GraphStore) :
    (cs.foldl (fun acc c => acc.addEdge newId c.1 {}) g).edges =
      g.edges ++ cs.map (fun c => ⟨newId, c.1, {}⟩) := by
  induction cs generalizing g with
  | nil => simp
  | cons c cs ih =>
    rw [List.foldl_cons, ih, edges_addEdge, List.append_assoc]
    rfl

/-! ### Lemmas about the `highlighted` attribute -/

theorem any_hl_map_update (l : List (String × NodeAttrs)) (id m : String)
    (f : NodeAttrs → NodeAttrs) (hf : ∀ a, (f a).highlighted = a.highlighted) :
    (l.map (fun p => if p.1 == id then (p.1, f p.2) else p)).any
        (fun p => p.1 == m && p.2.highlighted.isSome) =
      l.any (fun p => p.1 == m && p.2.highlighted.isSome) := by
  induction l with
  | nil => rfl
  | cons p l ih =>
    cases h : p.1 == id
    · simp only [List.map_cons, List.any_cons, ih]
      rw [if_neg (by simp [h])]
    · simp only [List.map_cons, List.any_cons, ih]
      rw [if_pos h]
      simp [hf]

theorem nodeHighlighted_updateNode (g : GraphStore) (id m : String)
    (f : NodeAttrs → NodeAttrs) (hf : ∀ a, (f a).highlighted = a.highlighted) :
    (g.updateNode id f).nodeHighlighted m = g.nodeHighlighted m :=
  any_hl_map_update g.nodes id m f hf

theorem nodeHighlighted_setX (g : GraphStore) (id m : String) (v : ℚ) :
    (g.setX id v).nodeHighlighted m = g.nodeHighlighted m :=
  nodeHighlighted_updateNode g id m _ (fun _ => rfl)

theorem nodeHighlighted_setY (g : GraphStore) (id m : String) (v : ℚ) :
    (g.setY id v).nodeHighlighted m = g.nodeHighlighted m :=
  nodeHighlighted_updateNode g id m _ (fun _ => rfl)

theorem nodeHighlighted_removeHighlighted_self (g : GraphStore) (id : String) :
    (g.removeHighlighted id).nodeHighlighted id = false := by
  show (g.nodes.map _).any _ = false
  rw [List.any_eq_false]
  intro p hp
  rcases List.mem_map.1 hp with ⟨q, _, hq⟩
  subst hq
  cases h : q.1 == id
  · rw [if_neg (by simp [h])]
    simp [h]
  · rw [if_pos rfl]
    simp

theorem nodeHighlighted_removeHighlighted_ne (g : GraphStore) (id m : String)
    (h : m ≠ id) :
    (g.removeHighlighted id).nodeHighlighted m = g.nodeHighlighted m := by
  show (g.nodes.map _).any _ = g.nodes.any _
  induction g.nodes with
  | nil => rfl
  | cons p l ih =>
    simp only [List.map_cons, List.any_cons, ih]
    cases hpid : p.1 == id
    · rw [if_neg (by simp [hpid])]
    · have hp1 : p.1 = id := by simpa using hpid
      have hpm : (p.1 == m) = false := by
        rw [hp1]
        exact beq_eq_false_iff_ne.2 (Ne.symm h)
      simp [hpm]

theorem nodeHighlighted_setHighlighted_ne (g : GraphStore) (id m : String) (b : Bool)
    (h : m ≠ id) :
    (g.setHighlighted id b).nodeHighlighted m = g.nodeHighlighted m := by
  show (g.nodes.map _).any _ = g.nodes.any _
  induction g.nodes with
  | nil => rfl
  | cons p l ih =>
    simp only [List.map_cons, List.any_cons, ih]
    cases hpid : p.1 == id
    · rw [if_neg (by simp [hpid])]
    · have hp1 : p.1 = id := by simpa using hpid
      have hpm : (p.1 == m) = false := by
        rw [hp1]
        exact beq_eq_false_iff_ne.2 (Ne.symm h)
      simp [hpm]

theorem nodeHighlighted_addNode (g : GraphStore) (id m : String) (a : NodeAttrs)
    (ha : a.highlighted = none) :
    (g.addNode id a).nodeHighlighted m = g.nodeHighlighted m := by
  show (g.nodes ++ [(id, a)]).any _ = g.nodes.any _
  rw [List.any_append]
  simp [ha]

theorem nodeHighlighted_of_all_none (g : GraphStore)
    (h : ∀ p ∈ g.nodes, p.2.highlighted = none) (m : String) :
    g.nodeHighlighted m = false := by
  rw [GraphStore.nodeHighlighted, List.any_eq_false]
  intro p hp
  simp [h p hp]

/-! ### Lemmas about `clickStage` -/

theorem nodes_clickStageStep (v2g : Point → Point) (g : GraphStore) (e : Point)
    (newId colorStr : String) :
    (clickStageStep v2g g e newId colorStr).nodes =
      g.nodes ++ [(newId,
        { x := (v2g e).x, y := (v2g e).y, size := 10, color := some colorStr })] := by
  unfold clickStageStep
  rw [foldl_addEdge_nodes]
  rfl

theorem edges_clickStageStep (v2g : Point → Point) (g : GraphStore) (e : Point)
    (newId colorStr : String) :
    (clickStageStep v2g g e newId colorStr).edges =
      g.edges ++ (closestNodes g (v2g e)).map (fun c => ⟨newId, c.1, {}⟩) := by
  unfold clickStageStep
  rw [foldl_addEdge_edges]
  rfl

theorem fst_distEntries (g : GraphStore) (p : Point) :
    (distEntries g p).map Prod.fst = g.nodeIds := by
  unfold distEntries
  rw [List.map_map]
  exact List.map_id _

theorem mem_closestNodes_nodeIds (g : GraphStore) (p : Point) (c : String × ℚ)
    (hc : c ∈ closestNodes g p) : c.1 ∈ g.nodeIds := by
  have h1 : c ∈ sortedDistEntries g p := List.mem_of_mem_take hc
  have h2 : c ∈ distEntries g p :=
    (List.perm_insertionSort distLe (distEntries g p)).mem_iff.1 h1
  rw [← fst_distEntries g p]
  exact List.mem_map_of_mem Prod.fst h2

theorem length_distEntries (g : GraphStore) (p : Point) :
    (distEntries g p).length = g.nodes.length := by
  unfold distEntries
  rw [List.length_map]
  exact List.length_map _ _

theorem length_sortedDistEntries (g : GraphStore) (p : Point) :
    (sortedDistEntries g p).length = g.nodes.length := by
  unfold sortedDistEntries
  rw [List.length_insertionSort]
  exact length_distEntries g p

theorem nodeHighlighted_clickStageStep (v2g : Point → Point) (g : GraphStore)
    (e : Point) (newId colorStr m : String) :
    (clickStageStep v2g g e newId colorStr).nodeHighlighted m =
      g.nodeHighlighted m := by
  show (clickStageStep v2g g e newId colorStr).nodes.any _ = _
  rw [nodes_clickStageStep, List.any_append]
  simp [GraphStore.nodeHighlighted]

/-! ### Lemmas about positions (`x` / `y` attributes) -/

theorem getX_updateNode (g : GraphStore) (id m : String) (f : NodeAttrs → NodeAttrs)
    (hf : ∀ a, (f a).x = a.x) :
    (g.updateNode id f).getX m = g.getX m := by
  unfold GraphStore.getX
  by_cases h : m = id
  · subst h
    rw [getNodeAttributes_updateNode_self, Option.map_map]
    cases hna : g.getNodeAttributes m
    · rfl
    · simp [hf]
  · rw [getNodeAttributes_updateNode_ne _ _ _ _ h]

theorem getY_updateNode (g : GraphStore) (id m : String) (f : NodeAttrs → NodeAttrs)
    (hf : ∀ a, (f a).y = a.y) :
    (g.updateNode id f).getY m = g.getY m := by
  unfold GraphStore.getY
  by_cases h : m = id
  · subst h
    rw [getNodeAttributes_updateNode_self, Option.map_map]
    cases hna : g.getNodeAttributes m
    · rfl
    · simp [hf]
  · rw [getNodeAttributes_updateNode_ne _ _ _ _ h]

theorem getX_setX_self (g : GraphStore) (id : String) (v : ℚ) (h : id ∈ g.nodeIds) :
    (g.setX id v).getX id = some v := by
  show (g.updateNode id _).getX id = some v
  unfold GraphStore.getX
  rw [getNodeAttributes_updateNode_self, Option.map_map]
  have hs : (g.getNodeAttributes id).isSome = true := (getNodeAttributes_isSome g id).2 h
  rcases Option.isSome_iff_exists.1 hs with ⟨a, ha⟩
  rw [ha]
  rfl

theorem getY_setY_self (g : GraphStore) (id : String) (v : ℚ) (h : id ∈ g.nodeIds) :
    (g.setY id v).getY id = some v := by
  show (g.updateNode id _).getY id = some v
  unfold GraphStore.getY
  rw [getNodeAttributes_updateNode_self, Option.map_map]
  have hs : (g.getNodeAttributes id).isSome = true := (getNodeAttributes_isSome g id).2 h
  rcases Option.isSome_iff_exists.1 hs with ⟨a, ha⟩
  rw [ha]
  rfl

theorem getX_setY (g : GraphStore) (id m : String) (v : ℚ) :
    (g.setY id v).getX m = g.getX m :=
  getX_updateNode g id m _ (fun _ => rfl)

theorem getY_setX (g : GraphStore) (id m : String) (v : ℚ) :
    (g.setX id v).getY m = g.getY m :=
  getY_updateNode g id m _ (fun _ => rfl)

theorem getX_removeHighlighted (g : GraphStore) (id m : String) :
    (g.removeHighlighted id).getX m = g.getX m :=
  getX_updateNode g id m _ (fun _ => rfl)

theorem getY_removeHighlighted (g : GraphStore) (id m : String) :
    (g.removeHighlighted id).getY m = g.getY m :=
  getY_updateNode g id m _ (fun _ => rfl)

theorem nodeIds_setX (g : GraphStore) (id : String) (v : ℚ) :
    (g.setX id v).nodeIds = g.nodeIds :=
  nodeIds_updateNode g id _

theorem nodeIds_setY (g : GraphStore) (id : String) (v : ℚ) :
    (g.setY id v).nodeIds = g.nodeIds :=
  nodeIds_updateNode g id _

theorem nodeIds_setHighlighted (g : GraphStore) (id : String) (b : Bool) :
    (g.setHighlighted id b).nodeIds = g.nodeIds :=
  nodeIds_updateNode g id _

theorem nodeIds_removeHighlighted (g : GraphStore) (id : String) :
    (g.removeHighlighted id).nodeIds = g.nodeIds :=
  nodeIds_updateNode g id _

/-! ### Lemmas about `run` and `step` -/

theorem run_nil (v2g : Point → Point) (s : AppState) : run v2g s [] = s := rfl

theorem run_cons (v2g : Point → Point) (s : AppState) (e : REvent) (es : List REvent) :
    run v2g s (e :: es) = run v2g (step v2g s e) es := rfl

theorem customBBox_step (v2g : Point → Point) (s : AppState) (e : REvent) (b : BBox)
    (h : s.customBBox = some b) : (step v2g s e).customBBox = some b := by
  rcases s with ⟨g, dn, idrag, bb⟩
  have hb : bb = some b := h
  subst hb
  cases e with
  | downNode n => rfl
  | mousemovebody p => cases idrag <;> cases dn <;> rfl
  | mouseup => cases dn <;> rfl
  | mousedown bb2 => rfl
  | clickStage p nid c => rfl

theorem customBBox_run (v2g : Point → Point) (s : AppState) (es : List REvent)
    (b : BBox) (h : s.customBBox = some b) :
    (run v2g s es).customBBox = some b := by
  induction es generalizing s with
  | nil => exact h
  | cons e es ih => exact ih _ (customBBox_step v2g s e b h)

theorem run_moves (v2g : Point → Point) (s : AppState) (n : String) (ms : List Point)
    (h1 : s.isDragging = true) (h2 : s.draggedNode = some n) :
    run v2g s (ms.map REvent.mousemovebody) =
      { s with
        graph := ms.foldl (fun g e => (g.setX n (v2g e).x).setY n (v2g e).y) s.graph } := by
  induction ms generalizing s with
  | nil =>
    rcases s with ⟨g, dn, idrag, bb⟩
    rfl
  | cons m ms ih =>
    rcases s with ⟨g, dn, idrag, bb⟩
    have h1' : idrag = true := h1
    have h2' : dn = some n := h2
    subst h1' h2'
    rw [List.map_cons, run_cons, List.foldl_cons]
    exact ih ⟨(g.setX n (v2g m).x).setY n (v2g m).y, some n, true, bb⟩ rfl rfl

theorem nodeIds_foldl_setXY (v2g : Point → Point) (n : String) (ms : List Point)
    (g : GraphStore) :
    (ms.foldl (fun g e => (g.setX n (v2g e).x).setY n (v2g e).y) g).nodeIds =
      g.nodeIds := by
  induction ms generalizing g with
  | nil => rfl
  | cons m ms ih =>
    rw [List.foldl_cons, ih, nodeIds_setY, nodeIds_setX]

theorem nodeHighlighted_foldl_setXY (v2g : Point → Point) (n m : String)
    (ms : List Point) (g : GraphStore) :
    (ms.foldl (fun g e => (g.setX n (v2g e).x).setY n (v2g e).y) g).nodeHighlighted m =
      g.nodeHighlighted m := by
  induction ms generalizing g with
  | nil => rfl
  | cons p ms ih =>
    rw [List.foldl_cons, ih, nodeHighlighted_setY, nodeHighlighted_setX]

theorem getX_foldl_setXY_last (v2g : Point → Point) (n : String) (ms : List Point)
    (m : Point) (g : GraphStore) (hn : n ∈ g.nodeIds) :
    ((ms ++ [m]).foldl (fun g e => (g.setX n (v2g e).x).setY n (v2g e).y) g).getX n =
      some ((v2g m).x) := by
  rw [List.foldl_append]
  have hn' : n ∈ ((ms.foldl (fun g e => (g.setX n (v2g e).x).setY n (v2g e).y) g)).nodeIds := by
    rw [nodeIds_foldl_setXY]
    exact hn
  rw [List.foldl_cons, List.foldl_nil, getX_setY]
  exact getX_setX_self _ n _ hn'

theorem getY_foldl_setXY_last (v2g : Point → Point) (n : String) (ms : List Point)
    (m : Point) (g : GraphStore) (hn : n ∈ g.nodeIds) :
    ((ms ++ [m]).foldl (fun g e => (g.setX n (v2g e).x).setY n (v2g e).y) g).getY n =
      some ((v2g m).y) := by
  rw [List.foldl_append]
  have hn' : n ∈ ((ms.foldl (fun g e => (g.setX n (v2g e).x).setY n (v2g e).y) g)).nodeIds := by
    rw [nodeIds_foldl_setXY]
    exact hn
  rw [List.foldl_cons, List.foldl_nil]
  apply getY_setY_self
  rw [nodeIds_setX]
  exact hn'

/-! ### Lemmas about the arrange loop and the initial state -/

theorem foldl_arrange_nodeHighlighted (pos : Nat → Point) (l : List (Nat × String))
    (g : GraphStore) (m : String) :
    (l.foldl (fun acc p => (acc.setX p.2 (pos p.1).x).setY p.2 (pos p.1).y) g).nodeHighlighted m =
      g.nodeHighlighted m := by
  induction l generalizing g with
  | nil => rfl
  | cons q l ih =>
    rw [List.foldl_cons, ih, nodeHighlighted_setY, nodeHighlighted_setX]

theorem foldl_arrange_nodeIds (pos : Nat → Point) (l : List (Nat × String))
    (g : GraphStore) :
    (l.foldl (fun acc p => (acc.setX p.2 (pos p.1).x).setY p.2 (pos p.1).y) g).nodeIds =
      g.nodeIds := by
  induction l generalizing g with
  | nil => rfl
  | cons q l ih =>
    rw [List.foldl_cons, ih, nodeIds_setY, nodeIds_setX]

theorem foldl_arrange_edges (pos : Nat → Point) (l : List (Nat × String))
    (g : GraphStore) :
    (l.foldl (fun acc p => (acc.setX p.2 (pos p.1).x).setY p.2 (pos p.1).y) g).edges =
      g.edges := by
  induction l generalizing g with
  | nil => rfl
  | cons q l ih => rw [List.foldl_cons, ih]; rfl

theorem nodeHighlighted_arrangeXY (pos : Nat → Point) (g : GraphStore) (m : String) :
    (arrangeXY pos g).nodeHighlighted m = g.nodeHighlighted m :=
  foldl_arrange_nodeHighlighted pos _ g m

theorem nodeIds_arrangeXY (pos : Nat → Point) (g : GraphStore) :
    (arrangeXY pos g).nodeIds = g.nodeIds :=
  foldl_arrange_nodeIds pos _ g

theorem edges_arrangeXY (pos : Nat → Point) (g : GraphStore) :
    (arrangeXY pos g).edges = g.edges :=
  foldl_arrange_edges pos _ g

theorem initState_nodeHighlighted (pos : Nat → Point) (m : String) :
    (initState pos).graph.nodeHighlighted m = false := by
  show (arrangeXY pos seedGraph0).nodeHighlighted m = false
  rw [nodeHighlighted_arrangeXY]
  exact nodeHighlighted_of_all_none seedGraph0 (by decide) m

/-! ### Shapes of individual steps -/

theorem step_downNode (v2g : Point → Point) (s : AppState) (n : String) :
    step v2g s (.downNode n) =
      { s with isDragging := true, draggedNode := some n,
               graph := s.graph.setHighlighted n true } := rfl

theorem step_mouseup_some (v2g : Point → Point) (s : AppState) (n : String)
    (h : s.draggedNode = some n) :
    step v2g s .mouseup =
      { s with graph := s.graph.removeHighlighted n, isDragging := false,
               draggedNode := none } := by
  rcases s with ⟨g, dn, idrag, bb⟩
  have h' : dn = some n := h
  subst h'
  rfl

theorem step_mouseup_none (v2g : Point → Point) (s : AppState)
    (h : s.draggedNode = none) :
    step v2g s .mouseup =
      { s with isDragging := false, draggedNode := none } := by
  rcases s with ⟨g, dn, idrag, bb⟩
  have h' : dn = none := h
  subst h'
  rfl

theorem step_mousemove_dragging (v2g : Point → Point) (s : AppState) (n : String)
    (e : Point) (h1 : s.isDragging = true) (h2 : s.draggedNode = some n) :
    step v2g s (.mousemovebody e) =
      { s with graph := (s.graph.setX n (v2g e).x).setY n (v2g e).y } := by
  rcases s with ⟨g, dn, idrag, bb⟩
  have h1' : idrag = true := h1
  have h2' : dn = some n := h2
  subst h1' h2'
  rfl

theorem step_clickStage (v2g : Point → Point) (s : AppState) (e : Point)
    (newId colorStr : String) :
    step v2g s (.clickStage e newId colorStr) =
      { s with graph := clickStageStep v2g s.graph e newId colorStr } := rfl

theorem run_append (v2g : Point → Point) (s : AppState) (l1 l2 : List REvent) :
    run v2g s (l1 ++ l2) = run v2g (run v2g s l1) l2 :=
  List.foldl_append _ _ _ _

theorem run_single (v2g : Point → Point) (s : AppState) (e : REvent) :
    run v2g s [e] = step v2g s e := rfl

/-! ### The drag-session invariant over legal traces -/

/-- While a drag is active the dragged node is the only node that may be
highlighted; while no drag is active, `draggedNode` is unset and no node
is highlighted. -/
def dragInv (s : AppState) : Prop :=
  (s.isDragging = true →
    ∃ n, s.draggedNode = some n ∧
      ∀ m, m ≠ n → s.graph.nodeHighlighted m = false) ∧
  (s.isDragging = false →
    s.draggedNode = none ∧ ∀ m, s.graph.nodeHighlighted m = false)

theorem dragInv_init (pos : Nat → Point) : dragInv (initState pos) := by
  constructor
  · intro h
    exact absurd h (by simp [initState])
  · intro _
    exact ⟨rfl, initState_nodeHighlighted pos⟩

theorem dragInv_step (v2g : Point → Point) (s : AppState) (e : REvent)
    (hleg : legalEv s e = true) (hinv : dragInv s) : dragInv (step v2g s e) := by
  cases e with
  | downNode n =>
    have hfalse : s.isDragging = false := by
      have : (!s.isDragging) = true := hleg
      simpa using this
    rw [step_downNode]
    constructor
    · intro _
      refine ⟨n, rfl, fun m hm => ?_⟩
      show (s.graph.setHighlighted n true).nodeHighlighted m = false
      rw [nodeHighlighted_setHighlighted_ne _ _ _ _ hm]
      exact (hinv.2 hfalse).2 m
    · intro h
      simp at h
  | mousemovebody p =>
    rcases s with ⟨g, dn, idrag, bb⟩
    cases idrag with
    | false => exact hinv
    | true =>
      cases dn with
      | none => exact hinv
      | some n =>
        rcases hinv.1 rfl with ⟨n', hdn, hhl⟩
        have hnn : n = n' := by
          have : some n = some n' := hdn
          simpa using this
        subst hnn
        constructor
        · intro _
          refine ⟨n, rfl, fun m hm => ?_⟩
          show ((g.setX n (v2g p).x).setY n (v2g p).y).nodeHighlighted m = false
          rw [nodeHighlighted_setY, nodeHighlighted_setX]
          exact hhl m hm
        · intro h
          have hb : true = false := h
          exact absurd hb (by decide)
  | mouseup =>
    rcases s with ⟨g, dn, idrag, bb⟩
    cases dn with
    | none =>
      constructor
      · intro h
        have hb : false = true := h
        exact absurd hb (by decide)
      · intro _
        refine ⟨rfl, fun m => ?_⟩
        cases idrag with
        | false => exact (hinv.2 rfl).2 m
        | true =>
          rcases hinv.1 rfl with ⟨n', hdn, _⟩
          exact absurd hdn (by simp)
    | some n =>
      constructor
      · intro h
        have hb : false = true := h
        exact absurd hb (by decide)
      · intro _
        refine ⟨rfl, fun m => ?_⟩
        show (g.removeHighlighted n).nodeHighlighted m = false
        by_cases hm : m = n
        · subst hm
          exact nodeHighlighted_removeHighlighted_self g m
        · rw [nodeHighlighted_removeHighlighted_ne _ _ _ hm]
          cases idrag with
          | true =>
            rcases hinv.1 rfl with ⟨n', hdn, hhl⟩
            have hnn : n = n' := by
              have : some n = some n' := hdn
              simpa using this
            subst hnn
            exact hhl m hm
          | false =>
            rcases hinv.2 rfl with ⟨hdn, _⟩
            exact absurd hdn (by simp)
  | mousedown bb2 =>
    rcases s with ⟨g, dn, idrag, bb⟩
    cases bb with
    | none => exact hinv
    | some b => exact hinv
  | clickStage p nid c =>
    rw [step_clickStage]
    constructor
    · intro h
      rcases hinv.1 h with ⟨n, hdn, hhl⟩
      refine ⟨n, hdn, fun m hm => ?_⟩
      show (clickStageStep v2g s.graph p nid c).nodeHighlighted m = false
      rw [nodeHighlighted_clickStageStep]
      exact hhl m hm
    · intro h
      rcases hinv.2 h with ⟨hdn, hhl⟩
      refine ⟨hdn, fun m => ?_⟩
      show (clickStageStep v2g s.graph p nid c).nodeHighlighted m = false
      rw [nodeHighlighted_clickStageStep]
      exact hhl m

theorem dragInv_run (v2g : Point → Point) (s : AppState) (es : List REvent)
    (hleg : legalTrace v2g s es = true) (hinv : dragInv s) :
    dragInv (run v2g s es) := by
  induction es generalizing s with
  | nil => exact hinv
  | cons e es ih =>
    have h1 : legalEv s e = true ∧ legalTrace v2g (step v2g s e) es = true := by
      simpa [legalTrace, Bool.and_eq_true] using hleg
    exact ih _ h1.2 (dragInv_step v2g s e h1.1 hinv)

/-! ### The edge-validity invariant -/

theorem edgesValid_congr (g g' : GraphStore) (hn : g'.nodeIds = g.nodeIds)
    (he : g'.edges = g.edges) (h : edgesValid g) : edgesValid g' := by
  intro e hme
  rw [hn]
  rw [he] at hme
  exact h e hme

theorem nodeIds_clickStageStep (v2g : Point → Point) (g : GraphStore) (e : Point)
    (newId colorStr : String) :
    (clickStageStep v2g g e newId colorStr).nodeIds = g.nodeIds ++ [newId] := by
  show (clickStageStep v2g g e newId colorStr).nodes.map Prod.fst = _
  rw [nodes_clickStageStep, List.map_append]
  rfl

theorem edgesValid_clickStageStep (v2g : Point → Point) (g : GraphStore) (e : Point)
    (newId colorStr : String) (h : edgesValid g) :
    edgesValid (clickStageStep v2g g e newId colorStr) := by
  intro ed hed
  rw [edges_clickStageStep] at hed
  rw [nodeIds_clickStageStep]
  rcases List.mem_append.1 hed with hold | hnew
  · rcases h ed hold with ⟨hs, ht⟩
    exact ⟨List.mem_append_left _ hs, List.mem_append_left _ ht⟩
  · rcases List.mem_map.1 hnew with ⟨c, hc, hce⟩
    subst hce
    refine ⟨List.mem_append_right _ (by simp), List.mem_append_left _ ?_⟩
    exact mem_closestNodes_nodeIds g (v2g e) c hc

theorem edgesValid_step (v2g : Point → Point) (s : AppState) (e : REvent)
    (h : edgesValid s.graph) : edgesValid (step v2g s e).graph := by
  cases e with
  | downNode n =>
    exact edgesValid_congr _ _ (nodeIds_setHighlighted s.graph n true) rfl h
  | mousemovebody p =>
    rcases s with ⟨g, dn, idrag, bb⟩
    cases idrag with
    | false => exact h
    | true =>
      cases dn with
      | none => exact h
      | some n =>
        exact edgesValid_congr g ((g.setX n (v2g p).x).setY n (v2g p).y)
          (by rw [nodeIds_setY, nodeIds_setX]) rfl h
  | mouseup =>
    rcases s with ⟨g, dn, idrag, bb⟩
    cases dn with
    | none => exact h
    | some n => exact edgesValid_congr _ _ (nodeIds_removeHighlighted g n) rfl h
  | mousedown bb2 =>
    rcases s with ⟨g, dn, idrag, bb⟩
    cases bb with
    | none => exact h
    | some b => exact h
  | clickStage p nid c => exact edgesValid_clickStageStep v2g s.graph p nid c h

theorem edgesValid_run (v2g : Point → Point) (s : AppState) (es : List REvent)
    (h : edgesValid s.graph) : edgesValid (run v2g s es).graph := by
  induction es generalizing s with
  | nil => exact h
  | cons e es ih => exact ih _ (edgesValid_step v2g s e h)

theorem edgesValid_init (pos : Nat → Point) : edgesValid (initState pos).graph :=
  edgesValid_congr _ _ (nodeIds_arrangeXY pos seedGraph0)
    (edges_arrangeXY pos seedGraph0) (by decide)

/-! ### Mask lemmas: operations that change only `x` / `y` -/

theorem mask_map_update (l : List (String × NodeAttrs)) (id : String)
    (f : NodeAttrs → NodeAttrs) (hf : ∀ a, maskXY (f a) = maskXY a) :
    ((l.map (fun p => if p.1 == id then (p.1, f p.2) else p)).map
        (fun p => (p.1, maskXY p.2))) =
      l.map (fun p => (p.1, maskXY p.2)) := by
  induction l with
  | nil => rfl
  | cons p l ih =>
    cases h : p.1 == id
    · simp only [List.map_cons, ih]
      rw [if_neg (by simp [h])]
    · simp only [List.map_cons, ih]
      rw [if_pos h]
      simp [hf]

theorem mask_nodes_setX (g : GraphStore) (id : String) (v : ℚ) :
    ((g.setX id v).nodes.map (fun p => (p.1, maskXY p.2))) =
      g.nodes.map (fun p => (p.1, maskXY p.2)) :=
  mask_map_update g.nodes id (fun a => { a with x := v }) (fun _ => rfl)

theorem mask_nodes_setY (g : GraphStore) (id : String) (v : ℚ) :
    ((g.setY id v).nodes.map (fun p => (p.1, maskXY p.2))) =
      g.nodes.map (fun p => (p.1, maskXY p.2)) :=
  mask_map_update g.nodes id (fun a => { a with y := v }) (fun _ => rfl)

theorem getNodeAttributes_setX_ne (g : GraphStore) (id m : String) (v : ℚ)
    (h : m ≠ id) : (g.setX id v).getNodeAttributes m = g.getNodeAttributes m :=
  getNodeAttributes_updateNode_ne g id m _ h

theorem getNodeAttributes_setY_ne (g : GraphStore) (id m : String) (v : ℚ)
    (h : m ≠ id) : (g.setY id v).getNodeAttributes m = g.getNodeAttributes m :=
  getNodeAttributes_updateNode_ne g id m _ h

/-! ### Concrete example data used by the witnesses -/

/-- The identity viewport-to-graph transform (a renderer whose camera is
the identity). -/
def v2gId : Point → Point := fun p => p

/-- A concrete seed-layout position function. -/
def pos0 : Nat → Point := fun _ => ⟨0, 0⟩

/-- Example node attributes at a given position. -/
def exAttrs (px py : ℚ) : NodeAttrs :=
  { x := px, y := py, size := 10 }

/-- Example graph with nodes at (0,0), (10,0), (0,10). -/
def exGraph : GraphStore :=
  { nodes := [("A", exAttrs 0 0), ("B", exAttrs 10 0), ("C", exAttrs 0 10)],
    edges := [] }

/-- Example graph with a single node. -/
def exGraph1 : GraphStore :=
  { nodes := [("A", exAttrs 0 0)], edges := [] }

/-- Example empty graph. -/
def exGraph0 : GraphStore :=
  { nodes := [], edges := [] }

/-- Example idle state over `exGraph`. -/
def exState : AppState :=
  { graph := exGraph, draggedNode := none, isDragging := false, customBBox := none }

/-- Example idle state over the one-node graph. -/
def exState1 : AppState :=
  { graph := exGraph1, draggedNode := none, isDragging := false, customBBox := none }

/-- Example idle state over the empty graph. -/
def exState0 : AppState :=
  { graph := exGraph0, draggedNode := none, isDragging := false, customBBox := none }

/-- Example state in the middle of dragging node `A`. -/
def exDragState : AppState :=
  { graph := exGraph, draggedNode := some "A", isDragging := true, customBBox := none }

/-- Example bounding boxes. -/
def bbA : BBox := ⟨0, 1, 0, 1⟩

def bbB : BBox := ⟨2, 3, 2, 3⟩

/-! ### The claims -/

/-- C1: for every node-press on `n` followed by pointer-moves and a
pointer-release, `n`'s final position is the `viewportToGraph` image of the
last move's coordinates, and afterwards `highlighted` is absent from `n`. -/
theorem claim1_drag_sequence (v2g : Point → Point) (s : AppState) (n : String)
    (ms : List Point) (m : Point) (hn : n ∈ s.graph.nodeIds) :
    ((run v2g s (REvent.downNode n ::
        ((ms ++ [m]).map REvent.mousemovebody ++ [REvent.mouseup]))).graph.getX n =
          some ((v2g m).x) ∧
      (run v2g s (REvent.downNode n ::
        ((ms ++ [m]).map REvent.mousemovebody ++ [REvent.mouseup]))).graph.getY n =
          some ((v2g m).y)) ∧
    ∀ ms0 : List Point,
      (run v2g s (REvent.downNode n ::
        (ms0.map REvent.mousemovebody ++ [REvent.mouseup]))).graph.nodeHighlighted n =
          false := by
  have key : ∀ ms0 : List Point,
      run v2g s (REvent.downNode n ::
          (ms0.map REvent.mousemovebody ++ [REvent.mouseup])) =
        { s with
          graph := (ms0.foldl (fun g e => (g.setX n (v2g e).x).setY n (v2g e).y)
            (s.graph.setHighlighted n true)).removeHighlighted n,
          isDragging := false, draggedNode := none } := by
    intro ms0
    rw [run_cons, step_downNode, run_append, run_moves _ _ n _ rfl rfl, run_single,
      step_mouseup_some _ _ n rfl]
  refine ⟨⟨?_, ?_⟩, ?_⟩
  · rw [key (ms ++ [m])]
    show ((((ms ++ [m]).foldl (fun g e => (g.setX n (v2g e).x).setY n (v2g e).y)
      (s.graph.setHighlighted n true)).removeHighlighted n).getX n) = some ((v2g m).x)
    rw [getX_removeHighlighted]
    exact getX_foldl_setXY_last v2g n ms m _
      (by rw [nodeIds_setHighlighted]; exact hn)
  · rw [key (ms ++ [m])]
    show ((((ms ++ [m]).foldl (fun g e => (g.setX n (v2g e).x).setY n (v2g e).y)
      (s.graph.setHighlighted n true)).removeHighlighted n).getY n) = some ((v2g m).y)
    rw [getY_removeHighlighted]
    exact getY_foldl_setXY_last v2g n ms m _
      (by rw [nodeIds_setHighlighted]; exact hn)
  · intro ms0
    rw [key ms0]
    exact nodeHighlighted_removeHighlighted_self _ n

theorem claim1_witness :
    (run v2gId exState [REvent.downNode "A", REvent.mousemovebody ⟨3, 4⟩,
        REvent.mousemovebody ⟨7, 8⟩, REvent.mouseup]).graph.getX "A" = some 7 ∧
    (run v2gId exState [REvent.downNode "A", REvent.mousemovebody ⟨3, 4⟩,
        REvent.mousemovebody ⟨7, 8⟩, REvent.mouseup]).graph.getY "A" = some 8 ∧
    (run v2gId exState [REvent.downNode "A", REvent.mousemovebody ⟨3, 4⟩,
        REvent.mousemovebody ⟨7, 8⟩, REvent.mouseup]).graph.nodeHighlighted "A" =
      false := by
  have h := claim1_drag_sequence v2gId exState "A" [⟨3, 4⟩] ⟨7, 8⟩ (by decide)
  exact ⟨h.1.1, h.1.2, h.2 [⟨3, 4⟩, ⟨7, 8⟩]⟩

/-- C2: a stage-click on a graph with at least 2 nodes adds exactly one
node and exactly two edges, both incident to the new node. -/
theorem claim2_stage_click_two_edges (v2g : Point → Point) (s : AppState)
    (e : Point) (newId colorStr : String) (h : 2 ≤ s.graph.nodes.length) :
    ∃ a t₁ t₂,
      (step v2g s (.clickStage e newId colorStr)).graph.nodes =
        s.graph.nodes ++ [(newId, a)] ∧
      (step v2g s (.clickStage e newId colorStr)).graph.edges =
        s.graph.edges ++ [⟨newId, t₁, {}⟩, ⟨newId, t₂, {}⟩] := by
  have hlen : (closestNodes s.graph (v2g e)).length = 2 := by
    unfold closestNodes
    rw [List.length_take, length_sortedDistEntries]
    omega
  rcases List.length_eq_two.1 hlen with ⟨c1, c2, hc⟩
  refine ⟨{ x := (v2g e).x, y := (v2g e).y, size := 10, color := some colorStr },
    c1.1, c2.1, ?_, ?_⟩
  · rw [step_clickStage]
    exact nodes_clickStageStep v2g s.graph e newId colorStr
  · rw [step_clickStage]
    show (clickStageStep v2g s.graph e newId colorStr).edges = _
    rw [edges_clickStageStep, hc]
    rfl

theorem claim2_witness :
    ∃ a t₁ t₂,
      (step v2gId exState (.clickStage ⟨1, 0⟩ "N" "#ffffff")).graph.nodes =
        exState.graph.nodes ++ [("N", a)] ∧
      (step v2gId exState (.clickStage ⟨1, 0⟩ "N" "#ffffff")).graph.edges =
        exState.graph.edges ++ [⟨"N", t₁, {}⟩, ⟨"N", t₂, {}⟩] :=
  claim2_stage_click_two_edges v2gId exState ⟨1, 0⟩ "N" "#ffffff" (by decide)

/-- C3: the two neighbours selected by a stage-click are the 2 existing
nodes of smallest squared distance to the converted click point; on nodes
(0,0), (10,0), (0,10) with click point (1,0) they are exactly A and B. -/
theorem claim3_closest_are_smallest :
    (∀ (g : GraphStore) (p : Point), ∃ rest,
        (distEntries g p).Perm (closestNodes g p ++ rest) ∧
        ∀ c ∈ closestNodes g p, ∀ u ∈ rest, c.2 ≤ u.2) ∧
    (closestNodes exGraph ⟨1, 0⟩).map Prod.fst = ["A", "B"] := by
  constructor
  · intro g p
    refine ⟨(sortedDistEntries g p).drop 2, ?_, ?_⟩
    · show (distEntries g p).Perm
        ((sortedDistEntries g p).take 2 ++ (sortedDistEntries g p).drop 2)
      rw [List.take_append_drop]
      exact (List.perm_insertionSort distLe (distEntries g p)).symm
    · intro c hc u hu
      have hs : List.Sorted distLe (sortedDistEntries g p) :=
        List.sorted_insertionSort distLe (distEntries g p)
      have hp : List.Pairwise distLe
          ((sortedDistEntries g p).take 2 ++ (sortedDistEntries g p).drop 2) := by
        rw [List.take_append_drop]
        exact hs
      exact (List.pairwise_append.1 hp).2.2 c hc u hu
  · with_unfolding_all decide

theorem claim3_witness :
    (closestNodes exGraph ⟨1, 0⟩).map Prod.fst = ["A", "B"] :=
  claim3_closest_are_smallest.2

/-- C4: a stage-click on a graph with fewer than 2 nodes still adds
exactly one node, and creates exactly 1 edge (one pre-existing node)
or 0 edges (empty graph); total functions, no error. -/
theorem claim4_stage_click_few_nodes (v2g : Point → Point) (s : AppState)
    (e : Point) (newId colorStr : String) :
    (s.graph.nodes.length = 1 →
      ∃ a t, (step v2g s (.clickStage e newId colorStr)).graph.nodes =
          s.graph.nodes ++ [(newId, a)] ∧
        (step v2g s (.clickStage e newId colorStr)).graph.edges =
          s.graph.edges ++ [⟨newId, t, {}⟩]) ∧
    (s.graph.nodes.length = 0 →
      ∃ a, (step v2g s (.clickStage e newId colorStr)).graph.nodes =
          s.graph.nodes ++ [(newId, a)] ∧
        (step v2g s (.clickStage e newId colorStr)).graph.edges =
          s.graph.edges) := by
  constructor
  · intro h1
    have hlen : (closestNodes s.graph (v2g e)).length = 1 := by
      unfold closestNodes
      rw [List.length_take, length_sortedDistEntries, h1]
      decide
    rcases List.length_eq_one.1 hlen with ⟨c, hc⟩
    refine ⟨{ x := (v2g e).x, y := (v2g e).y, size := 10, color := some colorStr },
      c.1, ?_, ?_⟩
    · rw [step_clickStage]
      exact nodes_clickStageStep v2g s.graph e newId colorStr
    · rw [step_clickStage]
      show (clickStageStep v2g s.graph e newId colorStr).edges = _
      rw [edges_clickStageStep, hc]
      rfl
  · intro h0
    have hlen : (closestNodes s.graph (v2g e)).length = 0 := by
      unfold closestNodes
      rw [List.length_take, length_sortedDistEntries, h0]
      decide
    have hc : closestNodes s.graph (v2g e) = [] := List.length_eq_zero.1 hlen
    refine ⟨{ x := (v2g e).x, y := (v2g e).y, size := 10, color := some colorStr },
      ?_, ?_⟩
    · rw [step_clickStage]
      exact nodes_clickStageStep v2g s.graph e newId colorStr
    · rw [step_clickStage]
      show (clickStageStep v2g s.graph e newId colorStr).edges = _
      rw [edges_clickStageStep, hc]
      simp

theorem claim4_witness :
    (∃ a t, (step v2gId exState1 (.clickStage ⟨1, 0⟩ "N" "#ffffff")).graph.nodes =
        exState1.graph.nodes ++ [("N", a)] ∧
      (step v2gId exState1 (.clickStage ⟨1, 0⟩ "N" "#ffffff")).graph.edges =
        exState1.graph.edges ++ [⟨"N", t, {}⟩]) ∧
    (∃ a, (step v2gId exState0 (.clickStage ⟨1, 0⟩ "N" "#ffffff")).graph.nodes =
        exState0.graph.nodes ++ [("N", a)] ∧
      (step v2gId exState0 (.clickStage ⟨1, 0⟩ "N" "#ffffff")).graph.edges =
        exState0.graph.edges) :=
  ⟨(claim4_stage_click_few_nodes v2gId exState1 ⟨1, 0⟩ "N" "#ffffff").1 (by decide),
   (claim4_stage_click_few_nodes v2gId exState0 ⟨1, 0⟩ "N" "#ffffff").2 (by decide)⟩

/-- C5: a pointer-move with no active drag (not dragging, or no dragged
node) leaves the graph store unchanged, and so does a pointer-release with
no dragged node. -/
theorem claim5_out_of_sequence_noop (v2g : Point → Point) (s : AppState)
    (e : Point) :
    ((s.isDragging = false ∨ s.draggedNode = none) →
      (step v2g s (.mousemovebody e)).graph = s.graph) ∧
    (s.draggedNode = none → (step v2g s .mouseup).graph = s.graph) := by
  rcases s with ⟨g, dn, idrag, bb⟩
  constructor
  · intro h
    rcases h with h | h
    · have h' : idrag = false := h
      subst h'
      rfl
    · have h' : dn = none := h
      subst h'
      cases idrag <;> rfl
  · intro h
    have h' : dn = none := h
    subst h'
    rfl

theorem claim5_witness :
    (step v2gId exState (.mousemovebody ⟨1, 1⟩)).graph = exState.graph ∧
    (step v2gId exState .mouseup).graph = exState.graph := by
  have h := claim5_out_of_sequence_noop v2gId exState ⟨1, 1⟩
  exact ⟨h.1 (Or.inl rfl), h.2 rfl⟩

/-- C6 (counterexample): two node-press events with no intervening
release — a sequence of the allowed event kinds — leave two distinct
nodes highlighted while a drag is active, refuting the claim as stated
over arbitrary event sequences. -/
theorem claim6_counterexample :
    (run v2gId (initState pos0)
        [REvent.downNode "John", REvent.downNode "Mary"]).isDragging = true ∧
    (run v2gId (initState pos0)
        [REvent.downNode "John", REvent.downNode "Mary"]).graph.nodeHighlighted
        "John" = true ∧
    (run v2gId (initState pos0)
        [REvent.downNode "John", REvent.downNode "Mary"]).graph.nodeHighlighted
        "Mary" = true ∧
    "John" ≠ "Mary" := by
  refine ⟨?_, ?_, ?_, by decide⟩ <;> decide

/-- C6 (amended): over traces in which every node-press is dispatched
while no drag is active (the browser's press/release discipline), at most
one node is highlighted while a drag is active, and no node is highlighted
once the drag has ended. -/
theorem claim6_amended_highlight_invariant (pos : Nat → Point)
    (v2g : Point → Point) (es : List REvent)
    (hleg : legalTrace v2g (initState pos) es = true) :
    ((run v2g (initState pos) es).isDragging = true →
      ∀ m m', (run v2g (initState pos) es).graph.nodeHighlighted m = true →
        (run v2g (initState pos) es).graph.nodeHighlighted m' = true → m = m') ∧
    ((run v2g (initState pos) es).isDragging = false →
      ∀ m, (run v2g (initState pos) es).graph.nodeHighlighted m = false) := by
  have hinv := dragInv_run v2g (initState pos) es hleg (dragInv_init pos)
  constructor
  · intro hd m m' hm hm'
    rcases hinv.1 hd with ⟨n, _, hhl⟩
    have h1 : m = n := by
      by_contra hne
      rw [hhl m hne] at hm
      exact absurd hm (by decide)
    have h2 : m' = n := by
      by_contra hne
      rw [hhl m' hne] at hm'
      exact absurd hm' (by decide)
    rw [h1, h2]
  · intro hd
    exact (hinv.2 hd).2

theorem claim6_witness :
    (run v2gId (initState pos0)
        [REvent.downNode "John", REvent.mouseup]).graph.nodeHighlighted "John" =
      false := by
  have h := claim6_amended_highlight_invariant pos0 v2gId
    [REvent.downNode "John", REvent.mouseup] (by decide)
  exact h.2 (by decide) "John"

/-- C7: a pointer-press captures the custom bounding box only when none is
set, and once a custom bounding box is set, no sequence of further events
(pointer-presses included) ever changes it. -/
theorem claim7_bbox_captured_once (v2g : Point → Point) :
    (∀ (s : AppState) (bb : BBox), s.customBBox = none →
      (step v2g s (.mousedown bb)).customBBox = some bb) ∧
    (∀ (s : AppState) (b : BBox) (es : List REvent), s.customBBox = some b →
      (run v2g s es).customBBox = some b) := by
  constructor
  · intro s bb h
    rcases s with ⟨g, dn, idrag, bb0⟩
    have h' : bb0 = none := h
    subst h'
    rfl
  · intro s b es h
    exact customBBox_run v2g s es b h

theorem claim7_witness :
    (step v2gId exState (.mousedown bbA)).customBBox = some bbA ∧
    (run v2gId { exState with customBBox := some bbA }
        [REvent.mousedown bbB, REvent.mousedown bbB]).customBBox = some bbA := by
  have h := claim7_bbox_captured_once v2gId
  exact ⟨h.1 exState bbA rfl,
    h.2 { exState with customBBox := some bbA } bbA
      [REvent.mousedown bbB, REvent.mousedown bbB] rfl⟩

/-- C8: in every state reachable from the seeded initial state by any
event sequence, every edge references two currently-existing node ids. -/
theorem claim8_edges_reference_existing_nodes (pos : Nat → Point)
    (v2g : Point → Point) (es : List REvent) :
    edgesValid (run v2g (initState pos) es).graph :=
  edgesValid_run v2g (initState pos) es (edgesValid_init pos)

/-- C9: a stage-click with a fresh id never creates a self-loop: each
created edge goes from the new node to a distinct, previously existing
node. -/
theorem claim9_no_self_loop (v2g : Point → Point) (s : AppState) (e : Point)
    (newId colorStr : String) (h : newId ∉ s.graph.nodeIds) :
    ∃ ts, (step v2g s (.clickStage e newId colorStr)).graph.edges =
        s.graph.edges ++ ts ∧
      ∀ ed ∈ ts, ed.source = newId ∧ ed.target ∈ s.graph.nodeIds ∧
        ed.target ≠ newId := by
  refine ⟨(closestNodes s.graph (v2g e)).map (fun c => ⟨newId, c.1, {}⟩), ?_, ?_⟩
  · rw [step_clickStage]
    exact edges_clickStageStep v2g s.graph e newId colorStr
  · intro ed hed
    rcases List.mem_map.1 hed with ⟨c, hc, hce⟩
    subst hce
    refine ⟨rfl, mem_closestNodes_nodeIds s.graph (v2g e) c hc, ?_⟩
    intro hcn
    exact h (hcn ▸ mem_closestNodes_nodeIds s.graph (v2g e) c hc)

theorem claim9_witness :
    ∃ ts, (step v2gId exState (.clickStage ⟨1, 0⟩ "N" "#ffffff")).graph.edges =
        exState.graph.edges ++ ts ∧
      ∀ ed ∈ ts, ed.source = "N" ∧ ed.target ∈ exState.graph.nodeIds ∧
        ed.target ≠ "N" :=
  claim9_no_self_loop v2gId exState ⟨1, 0⟩ "N" "#ffffff" (by decide)

/-- C10: a pointer-move during an active drag changes only the dragged
node's `x`/`y`: every other attribute of every node, all edges, and the
drag state are untouched. -/
theorem claim10_move_only_position (v2g : Point → Point) (s : AppState)
    (n : String) (e : Point) (h1 : s.isDragging = true)
    (h2 : s.draggedNode = some n) :
    (step v2g s (.mousemovebody e)).draggedNode = s.draggedNode ∧
    (step v2g s (.mousemovebody e)).isDragging = s.isDragging ∧
    (step v2g s (.mousemovebody e)).customBBox = s.customBBox ∧
    (step v2g s (.mousemovebody e)).graph.edges = s.graph.edges ∧
    (step v2g s (.mousemovebody e)).graph.nodes.map (fun p => (p.1, maskXY p.2)) =
      s.graph.nodes.map (fun p => (p.1, maskXY p.2)) ∧
    ∀ m, m ≠ n → (step v2g s (.mousemovebody e)).graph.getNodeAttributes m =
      s.graph.getNodeAttributes m := by
  rcases s with ⟨g, dn, idrag, bb⟩
  have h1' : idrag = true := h1
  have h2' : dn = some n := h2
  subst h1' h2'
  refine ⟨rfl, rfl, rfl, rfl, ?_, ?_⟩
  · show ((g.setX n (v2g e).x).setY n (v2g e).y).nodes.map (fun p => (p.1, maskXY p.2)) =
      g.nodes.map (fun p => (p.1, maskXY p.2))
    rw [mask_nodes_setY, mask_nodes_setX]
  · intro m hm
    show ((g.setX n (v2g e).x).setY n (v2g e).y).getNodeAttributes m =
      g.getNodeAttributes m
    rw [getNodeAttributes_setY_ne _ _ _ _ hm, getNodeAttributes_setX_ne _ _ _ _ hm]

theorem claim10_witness :
    (step v2gId exDragState (.mousemovebody ⟨5, 6⟩)).graph.edges =
      exDragState.graph.edges ∧
    (step v2gId exDragState (.mousemovebody ⟨5, 6⟩)).graph.nodes.map
        (fun p => (p.1, maskXY p.2)) =
      exDragState.graph.nodes.map (fun p => (p.1, maskXY p.2)) ∧
    (step v2gId exDragState (.mousemovebody ⟨5, 6⟩)).graph.getNodeAttributes "B" =
      exDragState.graph.getNodeAttributes "B" := by
  have h := claim10_move_only_position v2gId exDragState "A" ⟨5, 6⟩ rfl rfl
  exact ⟨h.2.2.2.1, h.2.2.2.2.1, h.2.2.2.2.2 "B" (by decide)⟩

end SigmaDemo
